import Mathlib

/-
Shallow embedding of the video-import POC app:
  - src/src/store/useVideoStore.ts      (zustand store: addVideos, clearVideos, deleteVideo)
  - src/src/utils/uploadUtils.ts        (validateVideoSize, copyVideoToStorage, VIDEO_DIR)
  - src/unnamed/part_000                (SelectVideosButton.handleSelectVideos: the
                                         validation pass and the sequential import loop)

External native effects (RNFS, AsyncStorage, decodeURIComponent) are modelled as
oracle fields of explicit "world" structures; everything the repository's own code
computes is translated directly.
-/

namespace VideoPoc

/-- VideoMetadata, from useVideoStore.ts lines 4-10.  `size` is an integer number of
bytes (a JS number), `createdAt` a millisecond timestamp. -/
structure VideoMetadata where
  id : String
  name : String
  size : Int
  path : String
  createdAt : Nat
  deriving DecidableEq

/-- Result of RNFS.stat, restricted to the fields the code reads. -/
structure StatResult where
  size : Int
  originalFilepath : Option String
  deriving DecidableEq

/-- Oracle world for the react-native-fs bridge and the other native calls made by
uploadUtils.ts.  `docDir` is RNFS.DocumentDirectoryPath, `now` the value Date.now()
returns at the start of a copyVideoToStorage call; the remaining fields give the
outcome of each native call (`Except.error msg` models a rejected promise carrying
`msg` as its message). -/
structure FileSys where
  docDir : String
  now : Nat
  decodeComp : String → Except String String
  statR : String → Except String StatResult
  copyFileR : String → String → Except String Unit
  existsR : String → Except String Bool
  mkdirR : String → Except String Unit
  unlinkR : String → Except String Unit

/-- VIDEO_DIR (uploadUtils.ts lines 199-202): both Platform.select branches give
DocumentDirectoryPath + '/imported_videos'. -/
def videoDir (w : FileSys) : String :=
  w.docDir ++ "/imported_videos"

/-- ensureVideoDirExists (uploadUtils.ts lines 204-209). -/
def ensureVideoDirExists (w : FileSys) : Except String Unit :=
  match w.existsR (videoDir w) with
  | Except.error e => Except.error e
  | Except.ok true => Except.ok ()
  | Except.ok false => w.mkdirR (videoDir w)

/-- MIN_SIZE_BYTES = 5 * 1024 * 1024 (uploadUtils.ts line 193). -/
def MIN_SIZE_BYTES : Int := 5 * 1024 * 1024

/-- MAX_SIZE_BYTES = 2 * 1024 * 1024 * 1024 (uploadUtils.ts line 196). -/
def MAX_SIZE_BYTES : Int := 2 * 1024 * 1024 * 1024

/-- validateVideoSize (uploadUtils.ts lines 211-215). -/
def validateVideoSize (size : Int) : Option String :=
  if size < MIN_SIZE_BYTES then some "Video is too small (<5MB)"
  else if size > MAX_SIZE_BYTES then some "Video is too large (>2GB)"
  else none

/-- The character class of the sanitization regex /[^a-zA-Z0-9.]/g: characters kept
unchanged by fileName.replace (uploadUtils.ts line 245); every other character is
replaced by an underscore. -/
def sanitizeChar (c : Char) : Char :=
  if (Char.ofNat 97 ≤ c ∧ c ≤ Char.ofNat 122) ∨
     (Char.ofNat 65 ≤ c ∧ c ≤ Char.ofNat 90) ∨
     (Char.ofNat 48 ≤ c ∧ c ≤ Char.ofNat 57) ∨
     c = Char.ofNat 46 then c
  else Char.ofNat 95

/-- fileName.replace of the regex, applied characterwise. -/
def sanitize (s : String) : String :=
  String.mk (s.data.map sanitizeChar)

/-- safeName (uploadUtils.ts line 245):
`fileName ? fileName.replace(...) : video_<timestamp>.mp4`.  JS truthiness: an
absent (undefined) fileName AND the empty string both take the default branch. -/
def safeNameOf (now : Nat) (fileName : Option String) : String :=
  match fileName with
  | some fn => if fn = "" then "video_" ++ toString now ++ ".mp4" else sanitize fn
  | none => "video_" ++ toString now ++ ".mp4"

/-- finalName (uploadUtils.ts line 247): timestamp, underscore, safeName. -/
def finalNameOf (now : Nat) (fileName : Option String) : String :=
  toString now ++ "_" ++ safeNameOf now fileName

/-- destPath (uploadUtils.ts line 248): VIDEO_DIR/finalName. -/
def copyDestPath (w : FileSys) (fileName : Option String) : String :=
  videoDir w ++ "/" ++ finalNameOf w.now fileName

/-- sourceUri.includes of a percent character; computation kept on the character
list so that it evaluates by kernel reduction. -/
def strContainsChar (s : String) (c : Char) : Bool :=
  s.data.contains c

/-- processedUri.startsWith, computed on the character lists. -/
def strStartsWith (s pre : String) : Bool :=
  pre.data.isPrefixOf s.data

/-- The try-block of copyVideoToStorage (uploadUtils.ts lines 250-319): decode the
URI when it contains a percent sign, resolve a content:// URI through
stat.originalFilepath (throwing when absent), copy to destPath, stat the copy, and
build the metadata record. -/
def copyTryBody (w : FileSys) (sourceUri : String) (fileName : Option String) :
    Except String VideoMetadata :=
  let destPath := copyDestPath w fileName
  match (if strContainsChar sourceUri (Char.ofNat 37)
         then w.decodeComp sourceUri else Except.ok sourceUri) with
  | Except.error e => Except.error e
  | Except.ok processedUri =>
    match (if strStartsWith processedUri "content://" then
             match w.statR processedUri with
             | Except.error e => Except.error e
             | Except.ok st =>
               match st.originalFilepath with
               | some p => Except.ok p
               | none => Except.error "Cannot resolve real file path"
           else Except.ok processedUri) with
    | Except.error e => Except.error e
    | Except.ok actualPath =>
      match w.copyFileR actualPath destPath with
      | Except.error e => Except.error e
      | Except.ok _ =>
        match w.statR destPath with
        | Except.error e => Except.error e
        | Except.ok stats =>
          Except.ok
            { id := finalNameOf w.now fileName
              name := safeNameOf w.now fileName
              size := stats.size
              path := destPath
              createdAt := w.now }

/-- copyVideoToStorage (uploadUtils.ts lines 237-328).  The first component is the
returned/thrown result; the second instruments the catch-block cleanup: the list of
destination paths successfully unlinked during the call (empty on success).  An
error inside the catch block (from RNFS.exists or RNFS.unlink) replaces the
original error, exactly as in a JS catch block. -/
def copyVideoToStorage (w : FileSys) (sourceUri : String) (fileName : Option String) :
    Except String VideoMetadata × List String :=
  match ensureVideoDirExists w with
  | Except.error e => (Except.error e, [])
  | Except.ok _ =>
    match copyTryBody w sourceUri fileName with
    | Except.ok m => (Except.ok m, [])
    | Except.error e =>
      match w.existsR (copyDestPath w fileName) with
      | Except.error e2 => (Except.error e2, [])
      | Except.ok true =>
        match w.unlinkR (copyDestPath w fileName) with
        | Except.error e2 => (Except.error e2, [])
        | Except.ok _ => (Except.error e, [copyDestPath w fileName])
      | Except.ok false => (Except.error e, [])

/- ---------------------------------------------------------------- JSON mirror -/

/-- One hexadecimal digit, lowercase, as JSON.stringify prints control escapes. -/
def hexDigitChar (n : Nat) : Char :=
  if n < 10 then Char.ofNat (48 + n) else Char.ofNat (87 + n)

/-- JSON.stringify escaping of a single character. -/
def jsonEscapeChar (c : Char) : String :=
  if c = Char.ofNat 34 then "\\\""
  else if c = Char.ofNat 92 then "\\\\"
  else if c = Char.ofNat 8 then "\\b"
  else if c = Char.ofNat 12 then "\\f"
  else if c = Char.ofNat 10 then "\\n"
  else if c = Char.ofNat 13 then "\\r"
  else if c = Char.ofNat 9 then "\\t"
  else if c.toNat < 32 then
    "\\u00" ++ String.mk [hexDigitChar (c.toNat / 16), hexDigitChar (c.toNat % 16)]
  else String.singleton c

/-- A JSON string literal. -/
def jsonStr (s : String) : String :=
  "\"" ++ String.join (s.data.map jsonEscapeChar) ++ "\""

/-- JSON.stringify of one VideoMetadata record, keys in the insertion order of the
object literal built by copyVideoToStorage. -/
def jsonOfVideo (v : VideoMetadata) : String :=
  "\x7b\"id\":" ++ jsonStr v.id ++
  ",\"name\":" ++ jsonStr v.name ++
  ",\"size\":" ++ toString v.size ++
  ",\"path\":" ++ jsonStr v.path ++
  ",\"createdAt\":" ++ toString v.createdAt ++ "\x7d"

/-- JSON.stringify of the videos array, as written to AsyncStorage under
STORAGE_KEY = @start_poc_videos. -/
def stringifyVideos (l : List VideoMetadata) : String :=
  "[" ++ String.intercalate "," (l.map jsonOfVideo) ++ "]"

/- ----------------------------------------------------------------- the store -/

/-- State of the zustand store (useVideoStore.ts lines 12-31) together with the
persisted AsyncStorage cell: `storage` is the value held under the single key
@start_poc_videos (`none` when the key is absent). -/
structure StoreState where
  videos : List VideoMetadata
  isLoading : Bool
  error : Option String
  selectedVideo : Option VideoMetadata
  storage : Option String
  deriving DecidableEq

/-- Oracle world for one store operation: the outcome of the AsyncStorage and RNFS
calls it performs. -/
structure StoreWorld where
  setItemR : Except String Unit
  removeItemR : Except String Unit
  existsB : String → Bool
  unlinkR : String → Except String Unit

/-- addVideos (useVideoStore.ts lines 48-61): append the new records, write the
JSON of the appended list to storage, then update the in-memory list; a setItem
failure is caught, leaves the list and storage unchanged, and only sets the error
message. -/
def addVideos (w : StoreWorld) (newVideos : List VideoMetadata) (s : StoreState) :
    StoreState :=
  let s1 := { s with isLoading := true, error := none }
  let updatedVideos := s1.videos ++ newVideos
  match w.setItemR with
  | Except.error _ =>
    { s1 with error := some "Failed to save videos metadata", isLoading := false }
  | Except.ok _ =>
    { s1 with storage := some (stringifyVideos updatedVideos),
              videos := updatedVideos, isLoading := false }

/-- clearVideos (useVideoStore.ts lines 63-73): REMOVE the storage key, then set
the in-memory list to empty. -/
def clearVideos (w : StoreWorld) (s : StoreState) : StoreState :=
  let s1 := { s with isLoading := true, error := none }
  match w.removeItemR with
  | Except.error _ =>
    { s1 with error := some "Failed to clear videos", isLoading := false }
  | Except.ok _ =>
    { s1 with storage := none, videos := [], isLoading := false }

/-- deleteVideo (useVideoStore.ts lines 75-109): find the record, remove it from
the in-memory list FIRST, persist the filtered list, then RNFS.exists/unlink the
record's file; every failure is caught and only sets the error message — nothing
is reverted. -/
def deleteVideo (w : StoreWorld) (id : String) (s : StoreState) : StoreState :=
  let s1 := { s with isLoading := true, error := none }
  match s1.videos.find? (fun v => v.id == id) with
  | none =>
    { s1 with error := some ("Failed to delete video: " ++ "Video not found"),
              isLoading := false }
  | some videoToDelete =>
    let updatedVideos := s1.videos.filter (fun v => v.id != id)
    let s2 := { s1 with videos := updatedVideos }
    match w.setItemR with
    | Except.error msg =>
      { s2 with error := some ("Failed to delete video: " ++ msg), isLoading := false }
    | Except.ok _ =>
      let s3 := { s2 with storage := some (stringifyVideos updatedVideos) }
      if w.existsB videoToDelete.path then
        match w.unlinkR videoToDelete.path with
        | Except.error msg =>
          { s3 with error := some ("Failed to delete video: " ++ msg),
                    isLoading := false }
        | Except.ok _ => { s3 with isLoading := false }
      else { s3 with isLoading := false }

/- ----------------------------------------------------- the import loop (UI) -/

/-- One picker result (react-native-document-picker asset) as handleSelectVideos
reads it: any of the fields may be missing. -/
structure PickedAsset where
  uri : Option String
  name : Option String
  size : Option Int
  deriving DecidableEq

/-- The standardized asset object pushed onto validAssets
(src/unnamed/part_000 lines 86-90). -/
structure ValidAsset where
  uri : String
  name : String
  size : Int
  deriving DecidableEq

/-- `asset.size || 0` (part_000 line 76). -/
def standardSize (a : PickedAsset) : Int :=
  match a.size with
  | none => 0
  | some n => n

/-- `asset.name || 'Video'` (part_000 line 77): undefined and the empty string
both fall back to the default. -/
def standardName (a : PickedAsset) : String :=
  match a.name with
  | none => "Video"
  | some s => if s = "" then "Video" else s

/-- The validation pass of handleSelectVideos (part_000 lines 60-92): returns the
valid-asset list and the error-message list, each in batch order.  An asset whose
uri is missing or empty is skipped by `if (!asset.uri) continue`. -/
def classifyAssets : List PickedAsset → List ValidAsset × List String
  | [] => ([], [])
  | a :: rest =>
    let tail := classifyAssets rest
    match a.uri with
    | none => tail
    | some u =>
      if u = "" then tail
      else
        match validateVideoSize (standardSize a) with
        | some err => (tail.1, (standardName a ++ ": " ++ err) :: tail.2)
        | none =>
          ({ uri := u, name := standardName a, size := standardSize a } :: tail.1,
           tail.2)

/-- Admission predicate of the claim, phrased as a filterMap step: what the
validation pass keeps of one asset. -/
def admittedAsset (a : PickedAsset) : Option ValidAsset :=
  match a.uri with
  | none => none
  | some u =>
    if u = "" then none
    else if validateVideoSize (standardSize a) = none then
      some { uri := u, name := standardName a, size := standardSize a }
    else none

/-- Running state of the sequential import loop (part_000 lines 101-128): the
shared store, the accumulated error list, successCount, and — as instrumentation —
the trace of every record passed to addVideos. -/
structure LoopState where
  store : StoreState
  errors : List String
  successCount : Nat
  added : List VideoMetadata
  deriving DecidableEq

/-- The sequential import loop (part_000 lines 106-128), from asset index `i`.
`copyW j` is the filesystem world of the copyVideoToStorage call for asset j,
`storeW j` the store world of its addVideos call.  A copy failure appends
`Failed to save <name>: <msg>` to the error list and the loop continues; a copy
success calls addVideos with the single returned record and increments
successCount (addVideos traps its own failures, so the loop always continues). -/
def importLoopFrom (copyW : Nat → FileSys) (storeW : Nat → StoreWorld) :
    Nat → List ValidAsset → LoopState → LoopState
  | _, [], ls => ls
  | i, a :: rest, ls =>
    let ls2 :=
      match (copyVideoToStorage (copyW i) a.uri (some a.name)).1 with
      | Except.ok meta =>
        { store := addVideos (storeW i) [meta] ls.store
          errors := ls.errors
          successCount := ls.successCount + 1
          added := ls.added ++ [meta] }
      | Except.error msg =>
        { ls with errors := ls.errors ++ ["Failed to save " ++ a.name ++ ": " ++ msg] }
    importLoopFrom copyW storeW (i + 1) rest ls2

/-- The metadata records of the assets whose copy succeeds, in batch order,
starting from asset index `i`. -/
def okMetas (copyW : Nat → FileSys) : Nat → List ValidAsset → List VideoMetadata
  | _, [] => []
  | i, a :: rest =>
    match (copyVideoToStorage (copyW i) a.uri (some a.name)).1 with
    | Except.ok m => m :: okMetas copyW (i + 1) rest
    | Except.error _ => okMetas copyW (i + 1) rest

/-- The error messages of the assets whose copy fails, in batch order, starting
from asset index `i`. -/
def failMsgs (copyW : Nat → FileSys) : Nat → List ValidAsset → List String
  | _, [] => []
  | i, a :: rest =>
    match (copyVideoToStorage (copyW i) a.uri (some a.name)).1 with
    | Except.ok _ => failMsgs copyW (i + 1) rest
    | Except.error msg =>
      ("Failed to save " ++ a.name ++ ": " ++ msg) :: failMsgs copyW (i + 1) rest

/- --------------------------------------------------------- concrete fixtures -/

/-- A filesystem world in which every native call succeeds: the video directory
exists, every copy succeeds, and stat of any path reports 6291456 bytes (6 MB)
with no originalFilepath; Date.now() is 5. -/
def fsOk : FileSys :=
  { docDir := "/docs"
    now := 5
    decodeComp := fun s => Except.ok s
    statR := fun _ => Except.ok { size := 6291456, originalFilepath := none }
    copyFileR := fun _ _ => Except.ok ()
    existsR := fun _ => Except.ok true
    mkdirR := fun _ => Except.ok ()
    unlinkR := fun _ => Except.ok () }

/-- Like fsOk but RNFS.copyFile rejects with message boom. -/
def fsCopyFail : FileSys :=
  { fsOk with copyFileR := fun _ _ => Except.error "boom" }

/-- Like fsCopyFail but the cleanup RNFS.unlink in the catch block also rejects. -/
def fsCleanupFail : FileSys :=
  { fsOk with copyFileR := fun _ _ => Except.error "boom",
              unlinkR := fun _ => Except.error "cleanup failed" }

/-- A store world in which every AsyncStorage and RNFS call succeeds. -/
def swOk : StoreWorld :=
  { setItemR := Except.ok ()
    removeItemR := Except.ok ()
    existsB := fun _ => true
    unlinkR := fun _ => Except.ok () }

/-- Like swOk but RNFS.unlink rejects with message EPERM. -/
def swUnlinkFail : StoreWorld :=
  { swOk with unlinkR := fun _ => Except.error "EPERM" }

/-- Like swOk but AsyncStorage.setItem rejects with message disk full. -/
def swSetFail : StoreWorld :=
  { swOk with setItemR := Except.error "disk full" }

/-- A sample persisted record. -/
def v0 : VideoMetadata :=
  { id := "a", name := "n", size := 7, path := "/p", createdAt := 3 }

/-- A second sample record with a different id. -/
def v1 : VideoMetadata :=
  { id := "b", name := "m", size := 8, path := "/q", createdAt := 4 }

/-- A store state holding v0, consistently mirrored to storage. -/
def s0 : StoreState :=
  { videos := [v0], isLoading := false, error := none, selectedVideo := none,
    storage := some (stringifyVideos [v0]) }

/-- The empty, consistent store state (fresh install). -/
def sEmpty : StoreState :=
  { videos := [], isLoading := false, error := none, selectedVideo := none,
    storage := none }

/-- A valid asset as standardized by the validation pass. -/
def assetA : ValidAsset :=
  { uri := "file:///x", name := "A", size := 6291456 }

/-- The metadata record copyVideoToStorage builds for assetA in the world fsOk. -/
def metaA : VideoMetadata :=
  { id := "5_A", name := "A", size := 6291456,
    path := "/docs/imported_videos/5_A", createdAt := 5 }

/-- A second valid asset, used with a world whose copy fails. -/
def assetB : ValidAsset :=
  { uri := "file:///y", name := "B", size := 6291456 }

/-- The record copyVideoToStorage builds in fsOk for the fileName A?b. -/
def metaAqb : VideoMetadata :=
  { id := "5_A_b", name := "A_b", size := 6291456,
    path := "/docs/imported_videos/5_A_b", createdAt := 5 }

/-- A picker asset with an in-range size but no uri. -/
def pickedNoUri : PickedAsset :=
  { uri := none, name := some "a", size := some 6291456 }

/-- The empty initial loop state over a given store state. -/
def loopInit (s : StoreState) : LoopState :=
  { store := s, errors := [], successCount := 0, added := [] }

end VideoPoc

/-- Decidable equality of Except results, needed to evaluate the embedding on
concrete worlds. -/
instance {e a : Type} [DecidableEq e] [DecidableEq a] : DecidableEq (Except e a) :=
  fun x y =>
    match x, y with
    | Except.ok u, Except.ok v =>
      if h : u = v then isTrue (by rw [h])
      else isFalse (by intro hc; cases hc; exact h rfl)
    | Except.error u, Except.error v =>
      if h : u = v then isTrue (by rw [h])
      else isFalse (by intro hc; cases hc; exact h rfl)
    | Except.ok _, Except.error _ => isFalse (by intro hc; cases hc)
    | Except.error _, Except.ok _ => isFalse (by intro hc; cases hc)

namespace VideoPoc


theorem addVideos_ok (w : StoreWorld) (nv : List VideoMetadata) (s : StoreState)
    (h : w.setItemR = Except.ok ()) :
    addVideos w nv s =
      { s with videos := s.videos ++ nv,
               storage := some (stringifyVideos (s.videos ++ nv)),
               error := none, isLoading := false } := by
  simp [addVideos, h]

theorem addVideos_fail (w : StoreWorld) (nv : List VideoMetadata) (s : StoreState)
    (msg : String) (h : w.setItemR = Except.error msg) :
    addVideos w nv s =
      { s with error := some "Failed to save videos metadata", isLoading := false } := by
  simp [addVideos, h]

theorem importLoopFrom_trace (copyW : Nat → FileSys) (storeW : Nat → StoreWorld) :
    ∀ (l : List ValidAsset) (i : Nat) (ls : LoopState),
      (importLoopFrom copyW storeW i l ls).added = ls.added ++ okMetas copyW i l
      ∧ (importLoopFrom copyW storeW i l ls).errors = ls.errors ++ failMsgs copyW i l
      ∧ (importLoopFrom copyW storeW i l ls).successCount
          = ls.successCount + (okMetas copyW i l).length := by
  intro l
  induction l with
  | nil => intro i ls; simp [importLoopFrom, okMetas, failMsgs]
  | cons a rest ih =>
    intro i ls
    simp only [importLoopFrom, okMetas, failMsgs]
    cases hc : (copyVideoToStorage (copyW i) a.uri (some a.name)).1 with
    | ok m =>
      simp only [hc]
      have h2 := ih (i + 1)
        { store := addVideos (storeW i) [m] ls.store
          errors := ls.errors
          successCount := ls.successCount + 1
          added := ls.added ++ [m] }
      refine ⟨?_, ?_, ?_⟩
      · rw [h2.1]; simp
      · rw [h2.2.1]
      · rw [h2.2.2]; simp; omega
    | error msg =>
      simp only [hc]
      have h2 := ih (i + 1)
        { ls with errors := ls.errors ++ ["Failed to save " ++ a.name ++ ": " ++ msg] }
      refine ⟨?_, ?_, ?_⟩
      · rw [h2.1]
      · rw [h2.2.1]; simp
      · rw [h2.2.2]



theorem importLoopFrom_cons_ok (copyW : Nat → FileSys) (storeW : Nat → StoreWorld)
    (a : ValidAsset) (rest : List ValidAsset) (i : Nat) (ls : LoopState)
    (m : VideoMetadata)
    (hc : (copyVideoToStorage (copyW i) a.uri (some a.name)).1 = Except.ok m) :
    importLoopFrom copyW storeW i (a :: rest) ls =
      importLoopFrom copyW storeW (i + 1) rest
        { store := addVideos (storeW i) [m] ls.store
          errors := ls.errors
          successCount := ls.successCount + 1
          added := ls.added ++ [m] } := by
  simp [importLoopFrom, hc]

theorem importLoopFrom_cons_err (copyW : Nat → FileSys) (storeW : Nat → StoreWorld)
    (a : ValidAsset) (rest : List ValidAsset) (i : Nat) (ls : LoopState)
    (msg : String)
    (hc : (copyVideoToStorage (copyW i) a.uri (some a.name)).1 = Except.error msg) :
    importLoopFrom copyW storeW i (a :: rest) ls =
      importLoopFrom copyW storeW (i + 1) rest
        { ls with errors := ls.errors ++ ["Failed to save " ++ a.name ++ ": " ++ msg] } := by
  simp [importLoopFrom, hc]

theorem importLoopFrom_videos (copyW : Nat → FileSys) (storeW : Nat → StoreWorld)
    (hset : ∀ j, (storeW j).setItemR = Except.ok ()) :
    ∀ (l : List ValidAsset) (i : Nat) (ls : LoopState),
      (importLoopFrom copyW storeW i l ls).store.videos
        = ls.store.videos ++ okMetas copyW i l := by
  intro l
  induction l with
  | nil => intro i ls; simp [importLoopFrom, okMetas]
  | cons a rest ih =>
    intro i ls
    cases hc : (copyVideoToStorage (copyW i) a.uri (some a.name)).1 with
    | ok m =>
      rw [importLoopFrom_cons_ok copyW storeW a rest i ls m hc, ih (i + 1),
          addVideos_ok _ _ _ (hset i)]
      simp only [okMetas, hc]
      simp
    | error msg =>
      rw [importLoopFrom_cons_err copyW storeW a rest i ls msg hc, ih (i + 1)]
      simp only [okMetas, hc]

theorem importLoopFrom_videos_mem (copyW : Nat → FileSys) (storeW : Nat → StoreWorld) :
    ∀ (l : List ValidAsset) (i : Nat) (ls : LoopState),
      ∀ m ∈ (importLoopFrom copyW storeW i l ls).store.videos,
        m ∈ ls.store.videos ∨ m ∈ (importLoopFrom copyW storeW i l ls).added := by
  intro l
  induction l with
  | nil => intro i ls m hm; exact Or.inl hm
  | cons a rest ih =>
    intro i ls m hm
    cases hc : (copyVideoToStorage (copyW i) a.uri (some a.name)).1 with
    | ok mo =>
      rw [importLoopFrom_cons_ok copyW storeW a rest i ls mo hc] at hm ⊢
      have step := ih (i + 1)
        { store := addVideos (storeW i) [mo] ls.store
          errors := ls.errors
          successCount := ls.successCount + 1
          added := ls.added ++ [mo] } m hm
      have hadded := (importLoopFrom_trace copyW storeW rest (i + 1)
        { store := addVideos (storeW i) [mo] ls.store
          errors := ls.errors
          successCount := ls.successCount + 1
          added := ls.added ++ [mo] }).1
      rcases step with hv | ha
      · cases hw : (storeW i).setItemR with
        | ok u =>
          cases u
          rw [addVideos_ok _ _ _ hw] at hv
          simp at hv
          rcases hv with hv | hv
          · exact Or.inl hv
          · right
            rw [hadded]
            simp [hv]
        | error msg =>
          rw [addVideos_fail _ _ _ _ hw] at hv
          simp at hv
          exact Or.inl hv
      · exact Or.inr ha
    | error msg =>
      rw [importLoopFrom_cons_err copyW storeW a rest i ls msg hc] at hm ⊢
      have step := ih (i + 1)
        { ls with errors := ls.errors ++ ["Failed to save " ++ a.name ++ ": " ++ msg] } m hm
      rcases step with hv | ha
      · exact Or.inl hv
      · exact Or.inr ha

theorem okMetas_mem (copyW : Nat → FileSys) :
    ∀ (l : List ValidAsset) (i : Nat) (m : VideoMetadata),
      m ∈ okMetas copyW i l →
      ∃ k a, l[k]? = some a
        ∧ (copyVideoToStorage (copyW (i + k)) a.uri (some a.name)).1 = Except.ok m := by
  intro l
  induction l with
  | nil => intro i m h; simp [okMetas] at h
  | cons a rest ih =>
    intro i m h
    simp only [okMetas] at h
    cases hc : (copyVideoToStorage (copyW i) a.uri (some a.name)).1 with
    | ok mo =>
      rw [hc] at h
      simp only at h
      rcases List.mem_cons.mp h with hv | hv
      · subst hv
        exact ⟨0, a, by simp, by simpa using hc⟩
      · rcases ih (i + 1) m hv with ⟨k, b, hk, hcopy⟩
        refine ⟨k + 1, b, by simpa using hk, ?_⟩
        have heq : i + (k + 1) = i + 1 + k := by omega
        rw [heq]
        exact hcopy
    | error msg =>
      rw [hc] at h
      simp only at h
      rcases ih (i + 1) m h with ⟨k, b, hk, hcopy⟩
      refine ⟨k + 1, b, by simpa using hk, ?_⟩
      have heq : i + (k + 1) = i + 1 + k := by omega
      rw [heq]
      exact hcopy



theorem copyTryBody_ok (w : FileSys) (uri : String) (fn : Option String)
    (m : VideoMetadata) (h : copyTryBody w uri fn = Except.ok m) :
    m.id = finalNameOf w.now fn
    ∧ m.name = safeNameOf w.now fn
    ∧ m.createdAt = w.now
    ∧ m.path = copyDestPath w fn
    ∧ ∃ st, w.statR (copyDestPath w fn) = Except.ok st ∧ m.size = st.size := by
  unfold copyTryBody at h
  simp only [] at h
  split at h
  · exact absurd h (by simp)
  · split at h
    · exact absurd h (by simp)
    · split at h
      · exact absurd h (by simp)
      · split at h
        · exact absurd h (by simp)
        next stats hstat =>
          injection h with h2
          subst h2
          exact ⟨rfl, rfl, rfl, rfl, stats, hstat, rfl⟩

theorem copyVideoToStorage_ok (w : FileSys) (uri : String) (fn : Option String)
    (m : VideoMetadata) (h : (copyVideoToStorage w uri fn).1 = Except.ok m) :
    copyTryBody w uri fn = Except.ok m := by
  unfold copyVideoToStorage at h
  split at h
  · exact absurd h (by simp)
  · split at h
    next ht => simpa using ht ▸ (by simpa using h)
    · split at h
      · exact absurd h (by simp)
      · split at h
        · exact absurd h (by simp)
        · exact absurd h (by simp)
      · exact absurd h (by simp)


/-- C5: a successful addVideos leaves the videos list equal to the existing list
with the new records appended at the end — every previously present record is
unchanged, relative order is preserved, and the new records follow in the order
given. -/
theorem c5_addVideos_appends (w : StoreWorld) (newVideos : List VideoMetadata)
    (s : StoreState) (h : w.setItemR = Except.ok ()) :
    (addVideos w newVideos s).videos = s.videos ++ newVideos := by
  rw [addVideos_ok w newVideos s h]

/-- C5 witness: the theorem applied at a concrete store state and record. -/
theorem c5_addVideos_appends_witness :
    (addVideos swOk [v1] s0).videos = s0.videos ++ [v1] :=
  c5_addVideos_appends swOk [v1] s0 rfl

/-- C10: deleteVideo with an id carried by no record leaves the in-memory list
and the persisted value unchanged, sets the error field to
Failed to delete video: Video not found (which contains both required phrases),
and finishes with isLoading false. -/
theorem c10_deleteVideo_unknown_id (w : StoreWorld) (id : String) (s : StoreState)
    (h : ∀ v ∈ s.videos, v.id ≠ id) :
    (deleteVideo w id s).videos = s.videos
    ∧ (deleteVideo w id s).storage = s.storage
    ∧ (deleteVideo w id s).error = some "Failed to delete video: Video not found"
    ∧ (deleteVideo w id s).isLoading = false := by
  have hfind : s.videos.find? (fun v => v.id == id) = none := by
    apply List.find?_eq_none.mpr
    intro v hv
    simpa using h v hv
  unfold deleteVideo
  simp [hfind]

/-- C10 witness: the theorem applied to the one-record state s0 and the unknown
id zzz. -/
theorem c10_deleteVideo_unknown_id_witness :
    (deleteVideo swOk "zzz" s0).videos = s0.videos
    ∧ (deleteVideo swOk "zzz" s0).storage = s0.storage
    ∧ (deleteVideo swOk "zzz" s0).error = some "Failed to delete video: Video not found"
    ∧ (deleteVideo swOk "zzz" s0).isLoading = false :=
  c10_deleteVideo_unknown_id swOk "zzz" s0 (by decide)

/-- C2: deleteVideo is not transactional — in the concrete execution below, the
record with id a is removed from both the in-memory list and the persisted JSON
even though the subsequent RNFS.unlink of its path rejects with EPERM, and the
removal is not reverted (the state keeps the filtered list and its
serialization, only the error message records the failure). -/
theorem c2_deleteVideo_not_transactional :
    (deleteVideo swUnlinkFail "a" s0).videos = []
    ∧ (deleteVideo swUnlinkFail "a" s0).storage = some (stringifyVideos [])
    ∧ (deleteVideo swUnlinkFail "a" s0).error = some "Failed to delete video: EPERM"
    ∧ swUnlinkFail.unlinkR v0.path = Except.error "EPERM"
    ∧ v0 ∈ s0.videos ∧ v0.id = "a" := by
  decide



theorem deleteVideo_videos_found (w : StoreWorld) (id : String) (s : StoreState)
    (v : VideoMetadata)
    (hfind : s.videos.find? (fun x => x.id == id) = some v) :
    (deleteVideo w id s).videos = s.videos.filter (fun x => x.id != id) := by
  unfold deleteVideo
  simp only [hfind]
  cases w.setItemR with
  | error msg => simp
  | ok u =>
    simp only []
    by_cases hb : w.existsB v.path
    · simp only [if_pos hb]
      cases w.unlinkR v.path with
      | error msg => simp
      | ok u2 => simp
    · simp [if_neg hb]

/-- C8: when exactly one record of the list carries the requested id, deleteVideo
leaves the videos list equal to the original list with only that record removed;
every other record is unchanged and the relative order is preserved.  This holds
in every world: the in-memory list is filtered before any fallible call. -/
theorem c8_deleteVideo_removes_exactly (w : StoreWorld) (id : String)
    (s : StoreState) (l1 l2 : List VideoMetadata) (v : VideoMetadata)
    (hsplit : s.videos = l1 ++ v :: l2) (hv : v.id = id)
    (hothers : ∀ u ∈ l1 ++ l2, u.id ≠ id) :
    (deleteVideo w id s).videos = l1 ++ l2 := by
  have hfind : s.videos.find? (fun x => x.id == id) = some v := by
    rw [hsplit]
    rw [List.find?_append]
    have h1 : l1.find? (fun x => x.id == id) = none := by
      apply List.find?_eq_none.mpr
      intro u hu
      simpa using hothers u (List.mem_append.mpr (Or.inl hu))
    rw [h1]
    simp [List.find?_cons, hv]
  rw [deleteVideo_videos_found w id s v hfind, hsplit, List.filter_append]
  have h1 : l1.filter (fun x => x.id != id) = l1 := by
    apply List.filter_eq_self.mpr
    intro u hu
    simpa using hothers u (List.mem_append.mpr (Or.inl hu))
  have h2 : (v :: l2).filter (fun x => x.id != id) = l2 := by
    rw [List.filter_cons_of_neg]
    · apply List.filter_eq_self.mpr
      intro u hu
      simpa using hothers u (List.mem_append.mpr (Or.inr hu))
    · simp [hv]
  rw [h1, h2]

/-- C8 witness: deleting id a from the two-record list removes exactly v0. -/
theorem c8_deleteVideo_removes_exactly_witness :
    (deleteVideo swOk "a"
      { videos := [v0, v1], isLoading := false, error := none,
        selectedVideo := none, storage := some (stringifyVideos [v0, v1]) }).videos
      = [] ++ [v1] :=
  c8_deleteVideo_removes_exactly swOk "a" _ [] [v1] v0 rfl rfl (by decide)

/-- C4 counterexample: after a successful clearVideos the key is REMOVED from
storage (removeItem), so the stored value is not the JSON serialization of the
(empty) current videos list, contrary to the claim's parenthetical. -/
theorem c4_clearVideos_counterexample :
    (clearVideos swOk s0).videos = []
    ∧ (clearVideos swOk s0).storage = none
    ∧ (clearVideos swOk s0).storage
        ≠ some (stringifyVideos (clearVideos swOk s0).videos) := by
  decide

/-- C4 amended: after a successful addVideos or deleteVideo the value stored
under the fixed key is the JSON serialization of the current videos list; a
successful clearVideos instead removes the key entirely (no value is stored)
while emptying the in-memory list. -/
theorem c4_storage_mirror_amended (w1 w2 w3 : StoreWorld)
    (s1 s2 s3 : StoreState) (nv : List VideoMetadata) (id : String)
    (v : VideoMetadata)
    (h1 : w1.setItemR = Except.ok ())
    (h2 : w2.setItemR = Except.ok ())
    (hv : s2.videos.find? (fun x => x.id == id) = some v)
    (hu : w2.existsB v.path = true → w2.unlinkR v.path = Except.ok ())
    (h3 : w3.removeItemR = Except.ok ()) :
    (addVideos w1 nv s1).storage = some (stringifyVideos (addVideos w1 nv s1).videos)
    ∧ (deleteVideo w2 id s2).storage
        = some (stringifyVideos (deleteVideo w2 id s2).videos)
    ∧ (clearVideos w3 s3).storage = none ∧ (clearVideos w3 s3).videos = [] := by
  refine ⟨?_, ?_, ?_, ?_⟩
  · rw [addVideos_ok w1 nv s1 h1]
  · unfold deleteVideo
    simp only [hv, h2]
    by_cases hb : w2.existsB v.path
    · simp only [if_pos hb, hu hb]
    · simp [if_neg hb]
  · unfold clearVideos
    simp [h3]
  · unfold clearVideos
    simp [h3]

/-- C4 witness: the amended theorem applied at concrete worlds and states. -/
theorem c4_storage_mirror_witness :
    (addVideos swOk [v1] s0).storage
        = some (stringifyVideos (addVideos swOk [v1] s0).videos)
    ∧ (deleteVideo swOk "a" s0).storage
        = some (stringifyVideos (deleteVideo swOk "a" s0).videos)
    ∧ (clearVideos swOk s0).storage = none ∧ (clearVideos swOk s0).videos = [] :=
  c4_storage_mirror_amended swOk swOk swOk s0 s0 s0 [v1] "a" v0
    rfl rfl rfl (fun _ => rfl) rfl



/-- C1: every record the import loop passes to addVideos comes from a
copyVideoToStorage call for some asset of the batch that resolved without error,
and that record's path is the destination path inside the video directory
(videoDir/id) with size equal to the size reported by stat of the copied
destination file; moreover every record in the store after the loop was either
there before or is one of those records. -/
theorem c1_import_records_from_successful_copies (copyW : Nat → FileSys)
    (storeW : Nat → StoreWorld) (assets : List ValidAsset) (ls : LoopState) :
    (∀ m ∈ (importLoopFrom copyW storeW 0 assets ls).added,
        m ∈ ls.added ∨
        ∃ k : Nat, ∃ a : ValidAsset, assets[k]? = some a
          ∧ (copyVideoToStorage (copyW k) a.uri (some a.name)).1 = Except.ok m
          ∧ m.path = videoDir (copyW k) ++ "/" ++ m.id
          ∧ m.createdAt = (copyW k).now
          ∧ ∃ st, (copyW k).statR m.path = Except.ok st ∧ m.size = st.size)
    ∧ (∀ m ∈ (importLoopFrom copyW storeW 0 assets ls).store.videos,
        m ∈ ls.store.videos ∨ m ∈ (importLoopFrom copyW storeW 0 assets ls).added) := by
  constructor
  · intro m hm
    rw [(importLoopFrom_trace copyW storeW assets 0 ls).1] at hm
    rcases List.mem_append.mp hm with h | h
    · exact Or.inl h
    · right
      rcases okMetas_mem copyW assets 0 m h with ⟨k, a, hk, hcopy⟩
      have hk0 : (0 : Nat) + k = k := by omega
      rw [hk0] at hcopy
      have hbody := copyVideoToStorage_ok _ _ _ _ hcopy
      have hspec := copyTryBody_ok _ _ _ _ hbody
      refine ⟨k, a, hk, hcopy, ?_, hspec.2.2.1, ?_⟩
      · rw [hspec.2.2.2.1, hspec.1]
        rfl
      · rcases hspec.2.2.2.2 with ⟨st, hst, hsz⟩
        exact ⟨st, by rw [hspec.2.2.2.1]; exact hst, hsz⟩
  · exact importLoopFrom_videos_mem copyW storeW assets 0 ls

/-- C1 witness: the theorem applied to a one-asset batch in the all-ok world,
at the record it produces. -/
theorem c1_import_records_witness :
    metaA ∈ (loopInit sEmpty).added ∨
    ∃ k : Nat, ∃ a : ValidAsset, ([assetA])[k]? = some a
      ∧ (copyVideoToStorage fsOk a.uri (some a.name)).1 = Except.ok metaA
      ∧ metaA.path = videoDir fsOk ++ "/" ++ metaA.id
      ∧ metaA.createdAt = fsOk.now
      ∧ ∃ st, fsOk.statR metaA.path = Except.ok st ∧ metaA.size = st.size :=
  (c1_import_records_from_successful_copies (fun _ => fsOk) (fun _ => swOk)
    [assetA] (loopInit sEmpty)).1 metaA (by decide)

/-- C3 counterexample: registering can fail without an error-list entry.  With a
successful copy but a failing AsyncStorage.setItem inside addVideos, the loop
records no error message (addVideos swallows its own failure), counts the asset
as a success, and the final video list is NOT the pre-loop list with the
successfully copied metadata appended. -/
theorem c3_registering_failure_counterexample :
    (copyVideoToStorage fsOk assetA.uri (some assetA.name)).1 = Except.ok metaA
    ∧ (importLoopFrom (fun _ => fsOk) (fun _ => swSetFail) 0 [assetA]
        (loopInit sEmpty)).errors = []
    ∧ (importLoopFrom (fun _ => fsOk) (fun _ => swSetFail) 0 [assetA]
        (loopInit sEmpty)).store.videos = []
    ∧ (importLoopFrom (fun _ => fsOk) (fun _ => swSetFail) 0 [assetA]
        (loopInit sEmpty)).successCount = 1
    ∧ (importLoopFrom (fun _ => fsOk) (fun _ => swSetFail) 0 [assetA]
        (loopInit sEmpty)).store.error = some "Failed to save videos metadata" := by
  decide

/-- C3 amended: the import loop is sequential and continues past individual copy
failures — each failed copy appends Failed to save name: msg to the error list in
batch order; registering failures are trapped inside addVideos (no error entry,
still counted by successCount); when every persistence write succeeds, the final
video list equals the pre-loop list with exactly the successfully copied assets'
metadata appended in batch order, and the error list equals the pre-loop errors
plus the copy-failure messages in batch order. -/
theorem c3_sequential_import_amended (copyW : Nat → FileSys)
    (storeW : Nat → StoreWorld)
    (hset : ∀ j, (storeW j).setItemR = Except.ok ())
    (assets : List ValidAsset) (ls : LoopState) :
    (importLoopFrom copyW storeW 0 assets ls).store.videos
      = ls.store.videos ++ okMetas copyW 0 assets
    ∧ (importLoopFrom copyW storeW 0 assets ls).errors
      = ls.errors ++ failMsgs copyW 0 assets
    ∧ (importLoopFrom copyW storeW 0 assets ls).successCount
      = ls.successCount + (okMetas copyW 0 assets).length := by
  have ht := importLoopFrom_trace copyW storeW assets 0 ls
  exact ⟨importLoopFrom_videos copyW storeW hset assets 0 ls, ht.2.1, ht.2.2⟩

/-- C3 witness: the amended theorem applied to a two-asset batch whose second
copy fails. -/
theorem c3_sequential_import_witness :
    (importLoopFrom (fun j => if j = 0 then fsOk else fsCopyFail)
        (fun _ => swOk) 0 [assetA, assetB] (loopInit sEmpty)).store.videos
      = (loopInit sEmpty).store.videos
          ++ okMetas (fun j => if j = 0 then fsOk else fsCopyFail) 0 [assetA, assetB]
    ∧ (importLoopFrom (fun j => if j = 0 then fsOk else fsCopyFail)
        (fun _ => swOk) 0 [assetA, assetB] (loopInit sEmpty)).errors
      = (loopInit sEmpty).errors
          ++ failMsgs (fun j => if j = 0 then fsOk else fsCopyFail) 0 [assetA, assetB]
    ∧ (importLoopFrom (fun j => if j = 0 then fsOk else fsCopyFail)
        (fun _ => swOk) 0 [assetA, assetB] (loopInit sEmpty)).successCount
      = (loopInit sEmpty).successCount
          + (okMetas (fun j => if j = 0 then fsOk else fsCopyFail) 0 [assetA, assetB]).length :=
  c3_sequential_import_amended (fun j => if j = 0 then fsOk else fsCopyFail)
    (fun _ => swOk) (fun _ => rfl) [assetA, assetB] (loopInit sEmpty)

/-- C6 counterexample: for the defined fileName equal to the empty string the
claim's sanitized name is the empty string (characterwise replacement of no
characters), but the code's JS truthiness test treats the empty string like
undefined and returns the default name video_5.mp4. -/
theorem c6_empty_filename_counterexample :
    (copyVideoToStorage fsOk "file:///x" (some "")).1
      = Except.ok { id := "5_video_5.mp4", name := "video_5.mp4", size := 6291456,
                    path := "/docs/imported_videos/5_video_5.mp4", createdAt := 5 }
    ∧ sanitize "" = ""
    ∧ ("video_5.mp4" : String) ≠ "" := by
  decide

/-- C6 amended: the metadata of a successful copyVideoToStorage has createdAt
equal to the timestamp taken at the start of the call, id equal to that
timestamp, an underscore, and the name; the name is the fileName with every
character outside a-z, A-Z, 0-9 and dot replaced by an underscore when fileName
is defined and nonempty, and video_timestamp.mp4 when fileName is undefined OR
empty. -/
theorem c6_identifier_derivation_amended (w : FileSys) (uri : String)
    (fn : Option String) (m : VideoMetadata) (cleanup : List String)
    (h : copyVideoToStorage w uri fn = (Except.ok m, cleanup)) :
    m.createdAt = w.now
    ∧ m.id = toString w.now ++ "_" ++ m.name
    ∧ (∀ s, fn = some s → s ≠ "" →
        m.name = String.mk (s.data.map (fun c =>
          if (Char.ofNat 97 ≤ c ∧ c ≤ Char.ofNat 122) ∨
             (Char.ofNat 65 ≤ c ∧ c ≤ Char.ofNat 90) ∨
             (Char.ofNat 48 ≤ c ∧ c ≤ Char.ofNat 57) ∨
             c = Char.ofNat 46 then c else Char.ofNat 95)))
    ∧ ((fn = none ∨ fn = some "") → m.name = "video_" ++ toString w.now ++ ".mp4") := by
  have h1 : (copyVideoToStorage w uri fn).1 = Except.ok m := by rw [h]
  have hspec := copyTryBody_ok w uri fn m (copyVideoToStorage_ok w uri fn m h1)
  refine ⟨hspec.2.2.1, ?_, ?_, ?_⟩
  · rw [hspec.1, hspec.2.1]
    rfl
  · intro s hs hne
    rw [hspec.2.1, hs]
    simp only [safeNameOf, if_neg hne]
    rfl
  · intro hd
    rcases hd with hd | hd <;> rw [hspec.2.1, hd] <;> simp [safeNameOf]

/-- C6 witness: the amended theorem at the fileName A?b, whose question mark is
replaced by an underscore. -/
theorem c6_identifier_derivation_witness :
    metaAqb.name = String.mk (("A?b".data).map (fun c =>
        if (Char.ofNat 97 ≤ c ∧ c ≤ Char.ofNat 122) ∨
           (Char.ofNat 65 ≤ c ∧ c ≤ Char.ofNat 90) ∨
           (Char.ofNat 48 ≤ c ∧ c ≤ Char.ofNat 57) ∨
           c = Char.ofNat 46 then c else Char.ofNat 95))
    ∧ metaAqb.createdAt = fsOk.now
    ∧ metaAqb.id = toString fsOk.now ++ "_" ++ metaAqb.name := by
  have h := c6_identifier_derivation_amended fsOk "file:///x" (some "A?b") metaAqb []
    (by decide)
  exact ⟨h.2.2.1 "A?b" rfl (by decide), h.1, h.2.1⟩

/-- C9 amended: when the try block of copyVideoToStorage fails after computing
the destination path AND the cleanup existence check and unlink themselves
succeed, the destination file (if it existed) is unlinked, no metadata record is
returned, and the original error is rethrown unchanged. -/
theorem c9_cleanup_amended (w : FileSys) (uri : String) (fn : Option String)
    (e : String) (eb : Bool)
    (htry : copyTryBody w uri fn = Except.error e)
    (hens : ensureVideoDirExists w = Except.ok ())
    (heb : w.existsR (copyDestPath w fn) = Except.ok eb)
    (hun : eb = true → w.unlinkR (copyDestPath w fn) = Except.ok ()) :
    copyVideoToStorage w uri fn
      = (Except.error e, if eb then [copyDestPath w fn] else []) := by
  unfold copyVideoToStorage
  rw [hens, htry, heb]
  cases eb with
  | true =>
    rw [hun rfl]
    rfl
  | false => rfl

/-- C9 witness: the amended theorem in a world whose copy fails with boom and
whose cleanup succeeds: the copy of the destination file is unlinked and boom
propagates. -/
theorem c9_cleanup_witness :
    copyVideoToStorage fsCopyFail "file:///x" (some "A")
      = (Except.error "boom",
         if true then [copyDestPath fsCopyFail (some "A")] else []) :=
  c9_cleanup_amended fsCopyFail "file:///x" (some "A") "boom" true
    rfl rfl rfl (fun _ => rfl)

/-- C9 counterexample: when the cleanup unlink itself rejects, the error that
propagates to the caller is the cleanup error, not the original copy error boom,
and the destination file is not unlinked — contradicting the claim that the
original error is always rethrown unchanged after unlinking. -/
theorem c9_cleanup_failure_counterexample :
    copyVideoToStorage fsCleanupFail "file:///x" (some "A")
      = (Except.error "cleanup failed", [])
    ∧ copyTryBody fsCleanupFail "file:///x" (some "A") = Except.error "boom"
    ∧ fsCleanupFail.existsR (copyDestPath fsCleanupFail (some "A")) = Except.ok true
    ∧ ("cleanup failed" : String) ≠ "boom" := by
  decide



/-- C7 counterexample: an asset with no uri and an in-range size is skipped by
the import flow even though validateVideoSize of its size returns null, so
admission to the valid set is not equivalent to the size check alone. -/
theorem c7_missing_uri_counterexample :
    validateVideoSize (standardSize pickedNoUri) = none
    ∧ (classifyAssets [pickedNoUri]).1 = [] := by
  decide

/-- C7 amended: validateVideoSize returns the too-small message iff size is
below 5 MiB, the too-large message iff size is above 2 GiB, and null otherwise;
and the valid set built by the import flow keeps exactly the assets with a
nonempty uri whose (defaulted) size passes validateVideoSize, skipping assets
without a uri. -/
theorem c7_size_threshold_amended :
    (∀ size : Int,
      (validateVideoSize size = some "Video is too small (<5MB)"
        ↔ size < MIN_SIZE_BYTES)
      ∧ (validateVideoSize size = some "Video is too large (>2GB)"
        ↔ MAX_SIZE_BYTES < size)
      ∧ (validateVideoSize size = none
        ↔ MIN_SIZE_BYTES ≤ size ∧ size ≤ MAX_SIZE_BYTES))
    ∧ (∀ assets : List PickedAsset,
        (classifyAssets assets).1 = assets.filterMap admittedAsset) := by
  constructor
  · intro size
    have hm1 : MIN_SIZE_BYTES = 5242880 := by decide
    have hm2 : MAX_SIZE_BYTES = 2147483648 := by decide
    simp only [validateVideoSize, hm1, hm2]
    by_cases h1 : size < 5242880
    · simp only [if_pos h1]
      exact ⟨by simp [h1],
        ⟨fun hx => absurd (Option.some.inj hx) (by decide),
         fun hx => absurd hx (by omega)⟩,
        ⟨fun hx => by simp at hx, fun hx => absurd hx.1 (by omega)⟩⟩
    · by_cases h2 : size > 2147483648
      · simp only [if_neg h1, if_pos h2]
        exact ⟨⟨fun hx => absurd (Option.some.inj hx) (by decide),
          fun hx => absurd hx (by omega)⟩,
          by simp [h2],
          ⟨fun hx => by simp at hx, fun hx => absurd hx.2 (by omega)⟩⟩
      · simp only [if_neg h1, if_neg h2]
        exact ⟨⟨fun hx => by simp at hx, fun hx => absurd hx (by omega)⟩,
          ⟨fun hx => by simp at hx, fun hx => absurd hx (by omega)⟩,
          by simp; omega⟩
  · intro assets
    induction assets with
    | nil => rfl
    | cons a rest ih =>
      simp only [classifyAssets, List.filterMap_cons]
      cases hu : a.uri with
      | none =>
        simp only [admittedAsset, hu]
        exact ih
      | some u =>
        by_cases he : u = ""
        · simp only [admittedAsset, hu, if_pos he]
          exact ih
        · cases hv : validateVideoSize (standardSize a) with
          | some err =>
            simp only [admittedAsset, hu, if_neg he, hv]
            simpa using ih
          | none =>
            simp only [admittedAsset, hu, if_neg he, hv, if_pos rfl]
            simp [ih]

end VideoPoc
